import Mathlib

/-!
# Verification of the batch EML extractor (`main.py`)

A shallow embedding of the extraction core of the repository
(`EMLBatchProcessor` in `main.py`, with the folder-collision loop repeated
verbatim in `gui.py`), together with theorems settling the frozen claims.

Modelling conventions:
* Python strings are Lean `String`s; byte payloads are `List Nat`.
* `part.get_payload(decode=True)` may return `None` (e.g. on a multipart
  container), hence `Option (List Nat)`.
* Python truthiness of an optional string (`if plain_body:` /
  `if filename:`) is `optTruthy`: false exactly on `None` and `""`.
* Filesystem writes are modelled by accumulating the file names written;
  a per-attachment oracle `ok : Nat → Bool` models whether the
  `open`/`write` at main.py:144-145 succeeds for the attachment at that
  index (the `except` at main.py:146 turns a failure into a warning).
-/

namespace EMLExtract

/-- Python's substring test `pat in hay`, specialised to `List Char`:
`startsWithList hay pat` holds when `pat` is an initial segment of `hay`. -/
def startsWithList : List Char → List Char → Bool
  | _, [] => true
  | [], _ :: _ => false
  | c :: cs, d :: ds => c == d && startsWithList cs ds

/-- Substring occurrence: `containsSubList hay pat` means some suffix of `hay` starts with `pat`
(Python's `pat in hay`). -/
def containsSubList : List Char → List Char → Bool
  | [], pat => pat.isEmpty
  | c :: rest, pat => startsWithList (c :: rest) pat || containsSubList rest pat

/-- Python `pat in hay` on strings. -/
def strContainsSub (hay pat : String) : Bool :=
  containsSubList hay.data pat.data

/-- The character class stripped by Python's `.strip(". ")`. -/
def isDotSpace (c : Char) : Bool := c == '.' || c == ' '

/-- Python's `str.strip(chars)`: drop the maximal run of characters
satisfying `p` from both ends. -/
def stripEnds (p : Char → Bool) (cs : List Char) : List Char :=
  ((cs.dropWhile p).reverse.dropWhile p).reverse

/-- The characters replaced by `sanitize_folder_name` (main.py:27). -/
def folderInvalidChars : List Char := ['<', '>', ':', '"', '/', '\\', '|', '?', '*']

/-- The characters replaced by `sanitize_attachment_filename`
(main.py:42 and main.py:45 combined; each is replaced by `_`, and `_` is
not itself in the set, so the sequential `str.replace` calls equal one
character map). -/
def attachInvalidChars : List Char := ['\\', '/', ':', '*', '?', '"', '<', '>', '|']

/-- Python's `hay.endswith(pat)`, on character lists. -/
def endsWithList (cs pat : List Char) : Bool :=
  startsWithList cs.reverse pat.reverse

/-- Python's `str.lower` restricted to ASCII letters (`main.py` only uses
it to detect the literal suffix `.eml", for which ASCII lowering is exact). -/
def asciiLower (c : Char) : Char :=
  if 'A' ≤ c ∧ c ≤ 'Z' then Char.ofNat (c.toNat + 32) else c

/-- Model of `EMLBatchProcessor.sanitize_folder_name` (main.py:23-30):
strip a case-insensitive `.eml` suffix, replace the invalid characters
by `_`, then `strip(". ")`. -/
def sanitize_folder_name (filename : String) : String :=
  let cs := filename.data
  let name := if endsWithList (cs.map asciiLower) ".eml".data
              then cs.take (cs.length - 4) else cs
  let name := name.map (fun c => if folderInvalidChars.contains c then '_' else c)
  ⟨stripEnds isDotSpace name⟩

/-- Model of `EMLBatchProcessor.sanitize_attachment_filename` (main.py:32-56).
The Python parameter may be `None` or `""`; both are falsy at
main.py:38, so a single `String` argument (with `""` for both) is
faithful. -/
def sanitize_attachment_filename (filename : String) : String :=
  if filename.isEmpty then "unnamed_attachment"
  else
    let safe := filename.data.map (fun c => if attachInvalidChars.contains c then '_' else c)
    let safe := stripEnds isDotSpace safe
    if safe.isEmpty then "unnamed_attachment" else ⟨safe⟩

/-- Index of the last `'.'` in a character list, if any. -/
def lastDotIdx (cs : List Char) : Option Nat :=
  match cs.reverse.findIdx? (· == '.') with
  | some i => some (cs.length - 1 - i)
  | none => none

/-- Model of `os.path.splitext` for names free of path separators (the only use in
main.py:138 is on an already sanitized attachment name): split at the last
dot, unless every character before it is a dot (leading dots are not an
extension separator, so `".bashrc"` and `"..."` have no extension). -/
def splitext (s : String) : String × String :=
  let cs := s.data
  match lastDotIdx cs with
  | none => (s, "")
  | some i => if (cs.take i).all (· == '.') then (s, "") else (⟨cs.take i⟩, ⟨cs.drop i⟩)

/-- The `k`-th candidate directory name tried by the loop at
main.py:196-201 (and gui.py:316-322): the original sanitized name first,
then `orig_1`, `orig_2`, … — each suffix applied to the *original* name. -/
def folderCandidate (orig : String) : Nat → String
  | 0 => orig
  | Nat.succ k => orig ++ "_" ++ Nat.repr (k + 1)

/-- The `k`-th candidate attachment file name tried by the loop at
main.py:134-140: the sanitized name first, then `stem_1ext`, `stem_2ext`, …
where `(stem, ext) = splitext` of the *original* sanitized name. -/
def attachCandidate (orig : String) : Nat → String
  | 0 => orig
  | Nat.succ k => (splitext orig).1 ++ "_" ++ Nat.repr (k + 1) ++ (splitext orig).2

/-- The `while filepath.exists()` loops of main.py: starting at candidate
index `k`, return the first index whose candidate is not occupied.
The source loop is unbounded; it is run here with enough fuel that the
fallback (fuel exhaustion) is unreachable — proven below. -/
def searchFrom (occ : Nat → Bool) : Nat → Nat → Nat
  | k, 0 => k
  | k, fuel + 1 => if occ k then searchFrom occ (k + 1) fuel else k

/-- Existence test for a candidate directory name under the output base.
`pathlib` drops empty path components, so `output_base / ""` is the output
base itself, which exists at resolution time (`mkdir` at main.py:183 /
gui.py:296); a non-empty candidate exists iff a sibling of that name was
already created. -/
def dirOccupied (existing : List String) (name : String) : Bool :=
  name.isEmpty || existing.contains name

/-- The folder-collision loop of main.py:196-201 / gui.py:316-322,
given the set of directory names already existing under the output base. -/
def resolveFolder (existing : List String) (orig : String) : String :=
  folderCandidate orig
    (searchFrom (fun k => dirOccupied existing (folderCandidate orig k)) 0 (existing.length + 2))

/-- The attachment-collision loop of main.py:134-140, given the file names
already existing in the `attachments/` directory. -/
def resolveAttachment (existing : List String) (orig : String) : String :=
  attachCandidate orig
    (searchFrom (fun k => existing.contains (attachCandidate orig k)) 0 (existing.length + 2))

/-- A node of the parsed MIME tree, as exposed by the `email` parser:
`leaf` is a non-multipart node (its `get_content()` is `content`, its
`get_payload(decode=True)` is `payload`, which the parser may fail to give,
hence `Option`); `node` is a multipart container with its subparts.
`disposition` is `str(part.get("Content-Disposition", ""))` and `filename`
is `part.get_filename()` (absent when no name is declared). -/
inductive Part where
  | leaf (contentType disposition : String) (filename : Option String)
         (content : String) (payload : Option (List Nat)) : Part
  | node (contentType disposition : String) (filename : Option String)
         (children : List Part) : Part

def Part.contentType : Part → String
  | .leaf ct _ _ _ _ => ct
  | .node ct _ _ _ => ct

def Part.disposition : Part → String
  | .leaf _ d _ _ _ => d
  | .node _ d _ _ => d

def Part.filename : Part → Option String
  | .leaf _ _ fn _ _ => fn
  | .node _ _ fn _ => fn

/-- Accessor `part.get_content()`. Only ever called by the source on parts whose
content type is `text/plain` or `text/html`, so the container case is
unreachable there; it is given the neutral value `""`. -/
def Part.get_content : Part → String
  | .leaf _ _ _ c _ => c
  | .node _ _ _ _ => ""

/-- Accessor `part.get_payload(decode=True)`: decoded bytes of a leaf;
`None` on a multipart container. -/
def Part.payloadDecode : Part → Option (List Nat)
  | .leaf _ _ _ _ p => p
  | .node _ _ _ _ => none

/-- Accessor `message.is_multipart()`. -/
def Part.is_multipart : Part → Bool
  | .leaf _ _ _ _ _ => false
  | .node _ _ _ _ => true

mutual
/-- Traversal `message.walk()`: depth-first, document order, yielding each node
before its subparts. -/
def Part.walk : Part → List Part
  | .leaf ct d fn c p => [.leaf ct d fn c p]
  | .node ct d fn children => .node ct d fn children :: walkList children

def walkList : List Part → List Part
  | [] => []
  | p :: ps => p.walk ++ walkList ps
end

/-- One recorded attachment candidate (main.py:97-102):
the declared filename and `get_payload(decode=True)`. -/
structure Attachment where
  filename : String
  content : Option (List Nat)
deriving DecidableEq

/-- The traversal state of main.py:84-86. -/
structure WalkState where
  plain_body : Option String
  html_body : Option String
  attachments : List Attachment
deriving DecidableEq

/-- Python truthiness of an optional string: `None` and `""` are falsy. -/
def optTruthy : Option String → Bool
  | none => false
  | some s => !s.isEmpty

/-- The loop body of main.py:89-107, classifying one visited part:
attachment disposition first (recorded only under a truthy declared
filename), else first-wins body capture by content type. -/
def classifyStep (st : WalkState) (p : Part) : WalkState :=
  if strContainsSub p.disposition "attachment" then
    match p.filename with
    | some fn =>
        if fn.isEmpty then st
        else { st with attachments := st.attachments ++ [⟨fn, p.payloadDecode⟩] }
    | none => st
  else if p.contentType == "text/plain" && st.plain_body.isNone then
    { st with plain_body := some p.get_content }
  else if p.contentType == "text/html" && st.html_body.isNone then
    { st with html_body := some p.get_content }
  else st

/-- Predicate for a part that the loop of main.py:89-107 accepts as a body
candidate of content type `ct`: non-attachment disposition and matching
content type. -/
def bodyCand (ct : String) (p : Part) : Bool :=
  !strContainsSub p.disposition "attachment" && p.contentType == ct

/-- Lines 84-113 of main.py: the traversal producing body candidates and attachment
candidates. Multipart: fold `classifyStep` over `walk`. Non-multipart
(main.py:108-113): only the content type of the whole message is
inspected — the disposition is not consulted and no attachment is ever
recorded. -/
def traverse (root : Part) : WalkState :=
  if root.is_multipart then
    root.walk.foldl classifyStep ⟨none, none, []⟩
  else if root.contentType == "text/plain" then
    ⟨some root.get_content, none, []⟩
  else if root.contentType == "text/html" then
    ⟨none, some root.get_content, []⟩
  else
    ⟨none, none, []⟩

/-- A parsed message: the recognized headers (with `"N/A"` already
substituted for absent ones, main.py:69-76) and the root MIME node. -/
structure EmailMessage where
  headers : List (String × String)
  root : Part

/-- The dictionary returned by `extract_single_email` (main.py:151-156). -/
structure ExtractionResult where
  headers : List (String × String)
  has_plain : Bool
  has_html : Bool
  attachment_count : Nat
deriving DecidableEq

/-- State of the attachment-saving loop (main.py:129-149): the file names
now existing in `attachments/` and the number of warnings printed. -/
structure SaveState where
  existing : List String
  warnings : Nat
deriving DecidableEq

/-- Saving one attachment (main.py:129-149): sanitize the declared name,
resolve collisions against the files already present, then write.
`ok` is true when the `open`/`write` at main.py:144-145 succeeds (it fails
e.g. when the payload decoded to `None`, making `f.write` raise); on
failure the exception is caught, a warning is printed and no file is
recorded. -/
def saveOne (ok : Bool) (st : SaveState) (att : Attachment) : SaveState :=
  let safe := sanitize_attachment_filename att.filename
  let final := resolveAttachment st.existing safe
  if ok && att.content.isSome then
    { st with existing := st.existing ++ [final] }
  else
    { st with warnings := st.warnings + 1 }

/-- The attachment loop of main.py:129-149 over all recorded candidates,
with `oracle i` the success of the filesystem write for the `i`-th one. -/
def saveAttachments (oracle : Nat → Bool) (atts : List Attachment) : SaveState :=
  atts.enum.foldl (fun st ia => saveOne (oracle ia.1) st ia.2) ⟨[], 0⟩

/-- Everything `extract_single_email` leaves on disk, plus its return
value. `files` are the names written directly in the output directory. -/
structure ExtractOutput where
  files : List String
  attachments_dir : Bool
  attachment_files : List String
  warnings : Nat
  result : ExtractionResult

/-- Model of `EMLBatchProcessor.extract_single_email` (main.py:58-156), from the
parsed message (the byte-parsing of main.py:61-62 is the `email` library's
work and is the model's input). `headers.txt` is always written
(main.py:79-81); `body_plain.txt` / `body_html.html` are written iff the
captured candidate is truthy (main.py:116-122); attachments are saved as
modelled by `saveAttachments` (main.py:124-149); the returned summary
(main.py:151-156) reports `is not None` booleans and the *candidate*
count. -/
def extract_single_email (oracle : Nat → Bool) (msg : EmailMessage) : ExtractOutput :=
  let st := traverse msg.root
  let save := if st.attachments.isEmpty then SaveState.mk [] 0
              else saveAttachments oracle st.attachments
  { files := ["headers.txt"]
      ++ (if optTruthy st.plain_body then ["body_plain.txt"] else [])
      ++ (if optTruthy st.html_body then ["body_html.html"] else [])
    attachments_dir := !st.attachments.isEmpty
    attachment_files := save.existing
    warnings := save.warnings
    result := { headers := msg.headers
                has_plain := st.plain_body.isSome
                has_html := st.html_body.isSome
                attachment_count := st.attachments.length } }

/-- The per-batch directory naming of main.py:190-204 (identically
gui.py:314-325): each source file name is sanitized, collision-resolved
against the directories existing under the output base at that moment, and
the directory is then created by `extract_single_email`'s `mkdir`
(main.py:66), so it is occupied for the following files. Returns the
assigned directory names in order. -/
def assignFolders (existing : List String) : List String → List String
  | [] => []
  | f :: fs =>
      let nm := resolveFolder existing (sanitize_folder_name f)
      nm :: assignFolders (existing ++ [nm]) fs

/-- The ways `process_all` (main.py:158-224) returns: early return on a
missing input folder (main.py:161-163), early return when no `.eml` file
is found (main.py:168-170), or the processing loop with its success and
failure counts (`fileOk i` is whether the `try` body at main.py:190-215
completed for the `i`-th file). Every branch returns normally — no
`sys.exit` is reachable from `process_all`. -/
inductive BatchOutcome where
  | folderNotFound
  | noFiles
  | ran (successful failed : Nat)
deriving DecidableEq

def process_all (folderExists : Bool) (numFiles : Nat) (fileOk : Nat → Bool) : BatchOutcome :=
  if !folderExists then .folderNotFound
  else if numFiles == 0 then .noFiles
  else .ran ((List.range numFiles).countP (fun i => fileOk i))
           ((List.range numFiles).countP (fun i => !fileOk i))

/-- Model of `main()` (main.py:238-276): with fewer than two `sys.argv` entries it
prints usage and calls `sys.exit(1)`; otherwise it runs `process_all` and
falls off the end, so the interpreter exits with code 0 whatever the
outcome. Returns the exit code and the batch outcome (when reached). -/
def main_run (argv : List String) (folderExists : Bool) (numFiles : Nat)
    (fileOk : Nat → Bool) : Nat × Option BatchOutcome :=
  if argv.length < 2 then (1, none)
  else (0, some (process_all folderExists numFiles fileOk))

end EMLExtract

namespace EMLExtract

/-! ## String and decimal-numeral facts -/

theorem strData_append (s t : String) : (s ++ t).data = s.data ++ t.data := by
  cases s; cases t; rfl

theorem strAppend_left_cancel {s t u : String} (h : s ++ t = s ++ u) : t = u := by
  apply String.ext
  have h' := congrArg String.data h
  rw [strData_append, strData_append] at h'
  exact List.append_cancel_left h'

theorem strAppend_right_cancel {s t u : String} (h : s ++ u = t ++ u) : s = t := by
  apply String.ext
  have h' := congrArg String.data h
  rw [strData_append, strData_append] at h'
  exact List.append_cancel_right h'

theorem digitChar_injOn :
    ∀ a, a < 10 → ∀ b, b < 10 → Nat.digitChar a = Nat.digitChar b → a = b := by decide

theorem toDigitsCore_eq_digits :
    ∀ (fuel n : Nat) (acc : List Char), 0 < n → n < fuel →
      Nat.toDigitsCore 10 fuel n acc = ((Nat.digits 10 n).map Nat.digitChar).reverse ++ acc := by
  intro fuel
  induction fuel with
  | zero => intro n acc _ h2; omega
  | succ fuel ih =>
    intro n acc hn hlt
    have hdig : Nat.digits 10 n = n % 10 :: Nat.digits 10 (n / 10) :=
      Nat.digits_def' (by norm_num) hn
    by_cases hdiv : n / 10 = 0
    · simp only [Nat.toDigitsCore, hdiv, if_true, hdig, Nat.digits_zero,
        List.map_cons, List.map_nil, List.reverse_cons, List.reverse_nil,
        List.nil_append, List.singleton_append]
    · have h1 : 0 < n / 10 := Nat.pos_of_ne_zero hdiv
      have h2 : n / 10 < fuel := by
        have := Nat.div_lt_self hn (by norm_num : 1 < 10)
        omega
      simp only [Nat.toDigitsCore, hdiv, if_false]
      rw [ih (n / 10) (Nat.digitChar (n % 10) :: acc) h1 h2, hdig]
      simp [List.append_assoc]

theorem repr_eq_of_pos (n : Nat) (hn : 0 < n) :
    Nat.repr n = List.asString ((Nat.digits 10 n).map Nat.digitChar).reverse := by
  show (Nat.toDigits 10 n).asString = _
  unfold Nat.toDigits
  rw [toDigitsCore_eq_digits (n + 1) n [] hn (by omega), List.append_nil]

theorem map_digitChar_inj :
    ∀ l1 l2 : List Nat, (∀ x ∈ l1, x < 10) → (∀ x ∈ l2, x < 10) →
      l1.map Nat.digitChar = l2.map Nat.digitChar → l1 = l2 := by
  intro l1
  induction l1 with
  | nil => intro l2 _ _ h; cases l2 <;> simp_all
  | cons a l ih =>
    intro l2 h1 h2 h
    cases l2 with
    | nil => simp_all
    | cons b l2 =>
      simp only [List.map_cons, List.cons.injEq] at h
      have ha : a = b := digitChar_injOn a (h1 a (by simp)) b (h2 b (by simp)) h.1
      have hl : l = l2 := ih l2 (fun x hx => h1 x (by simp [hx]))
        (fun x hx => h2 x (by simp [hx])) h.2
      rw [ha, hl]

theorem asString_data (l : List Char) : (List.asString l).data = l := rfl

theorem reprNat_injective : Function.Injective Nat.repr := by
  have key : ∀ n : Nat, 0 < n →
      (Nat.repr n).data.reverse = (Nat.digits 10 n).map Nat.digitChar := by
    intro n hn
    rw [repr_eq_of_pos n hn, asString_data, List.reverse_reverse]
  have digitBound : ∀ n : Nat, ∀ x ∈ Nat.digits 10 n, x < 10 := by
    intro n x hx; exact Nat.digits_lt_base (by norm_num) hx
  have zeroBound : ∀ x ∈ ([0] : List Nat), x < 10 := by intro x hx; simp at hx; omega
  intro a b h
  rcases Nat.eq_zero_or_pos a with ha | ha <;> rcases Nat.eq_zero_or_pos b with hb | hb
  · omega
  · exfalso
    subst ha
    have hb' := key b hb
    rw [← h] at hb'
    have hzero : Nat.digits 10 b = [0] := by
      apply map_digitChar_inj _ _ (digitBound b) zeroBound
      rw [← hb']; rfl
    have := congrArg (Nat.ofDigits 10) hzero
    rw [Nat.ofDigits_digits] at this
    simp [Nat.ofDigits] at this
    omega
  · exfalso
    subst hb
    have ha' := key a ha
    rw [h] at ha'
    have hzero : Nat.digits 10 a = [0] := by
      apply map_digitChar_inj _ _ (digitBound a) zeroBound
      rw [← ha']; rfl
    have := congrArg (Nat.ofDigits 10) hzero
    rw [Nat.ofDigits_digits] at this
    simp [Nat.ofDigits] at this
    omega
  · have ka := key a ha
    have kb := key b hb
    rw [h] at ka
    have hdig : Nat.digits 10 a = Nat.digits 10 b :=
      map_digitChar_inj _ _ (digitBound a) (digitBound b) (by rw [← ka, ← kb])
    have := congrArg (Nat.ofDigits 10) hdig
    rwa [Nat.ofDigits_digits, Nat.ofDigits_digits] at this

/-! ## Correctness of the while-loop search -/

theorem searchFrom_spec (occ : Nat → Bool) :
    ∀ (fuel k : Nat), (∃ j, k ≤ j ∧ j < k + fuel ∧ occ j = false) →
      occ (searchFrom occ k fuel) = false ∧ k ≤ searchFrom occ k fuel ∧
        ∀ i, k ≤ i → i < searchFrom occ k fuel → occ i = true := by
  intro fuel
  induction fuel with
  | zero => intro k ⟨j, h1, h2, _⟩; omega
  | succ fuel ih =>
    intro k ⟨j, hkj, hjf, hj⟩
    by_cases hk : occ k = true
    · have hne : j ≠ k := by intro e; rw [e, hk] at hj; cases hj
      have hrec := ih (k + 1) ⟨j, by omega, by omega, hj⟩
      have hstep : searchFrom occ k (fuel + 1) = searchFrom occ (k + 1) fuel := by
        simp [searchFrom, hk]
      rw [hstep]
      refine ⟨hrec.1, by omega, ?_⟩
      intro i hki hilt
      rcases Nat.eq_or_lt_of_le hki with rfl | hki'
      · exact hk
      · exact hrec.2.2 i hki' hilt
    · have hstep : searchFrom occ k (fuel + 1) = k := by
        simp [searchFrom, hk]
      rw [hstep]
      exact ⟨Bool.eq_false_iff.mpr hk, Nat.le_refl k, fun i h1 h2 => by omega⟩


/-! ## Injectivity of the candidate-name sequences -/

theorem folderCandidate_inj (orig : String) : Function.Injective (folderCandidate orig) := by
  intro a b h
  match a, b with
  | 0, 0 => rfl
  | 0, k + 1 =>
    exfalso
    have h' : orig = orig ++ "_" ++ Nat.repr (k + 1) := h
    have hl := congrArg (fun s : String => s.data.length) h'
    simp [strData_append] at hl
  | k + 1, 0 =>
    exfalso
    have h' : orig ++ "_" ++ Nat.repr (k + 1) = orig := h
    have hl := congrArg (fun s : String => s.data.length) h'
    simp [strData_append] at hl
  | a + 1, b + 1 =>
    have h' : orig ++ "_" ++ Nat.repr (a + 1) = orig ++ "_" ++ Nat.repr (b + 1) := h
    have h2 := strAppend_left_cancel (strAppend_left_cancel ((String.append_assoc _ _ _).symm.trans
      (h'.trans (String.append_assoc _ _ _))))
    have := reprNat_injective h2
    omega

theorem splitext_data (s : String) : (splitext s).1.data ++ (splitext s).2.data = s.data := by
  unfold splitext
  cases h : lastDotIdx s.data with
  | none => simp [h]
  | some i =>
    by_cases hall : (s.data.take i).all (· == '.')
    · simp [h, hall]
    · simp [h, hall, List.take_append_drop]

theorem attachCandidate_inj (orig : String) : Function.Injective (attachCandidate orig) := by
  have hstem : (splitext orig).1.length + (splitext orig).2.length = orig.length := by
    have hx := congrArg List.length (splitext_data orig)
    simpa using hx
  intro a b h
  match a, b with
  | 0, 0 => rfl
  | 0, k + 1 =>
    exfalso
    have h' : orig = (splitext orig).1 ++ "_" ++ Nat.repr (k + 1) ++ (splitext orig).2 := h
    have hl := congrArg (fun s : String => s.data.length) h'
    simp [strData_append] at hl
    omega
  | k + 1, 0 =>
    exfalso
    have h' : (splitext orig).1 ++ "_" ++ Nat.repr (k + 1) ++ (splitext orig).2 = orig := h
    have hl := congrArg (fun s : String => s.data.length) h'
    simp [strData_append] at hl
    omega
  | a + 1, b + 1 =>
    have h' : (splitext orig).1 ++ "_" ++ Nat.repr (a + 1) ++ (splitext orig).2 =
        (splitext orig).1 ++ "_" ++ Nat.repr (b + 1) ++ (splitext orig).2 := h
    have h2 := strAppend_right_cancel h'
    have h3 := strAppend_left_cancel (strAppend_left_cancel ((String.append_assoc _ _ _).symm.trans
      (h2.trans (String.append_assoc _ _ _))))
    have := reprNat_injective h3
    omega

/-! ## Pigeonhole freshness for the collision loops -/

theorem exists_free (nm : Nat → String) (hinj : Function.Injective nm) (occ : Nat → Bool)
    (bad : List String) (hocc : ∀ n, occ n = true → nm n ∈ bad) :
    ∃ j, j < bad.length + 1 ∧ occ j = false := by
  by_contra hcon
  push_neg at hcon
  have hall : ∀ j, j < bad.length + 1 → occ j = true := by
    intro j hj
    cases hoj : occ j with
    | false => exact absurd hoj (hcon j hj)
    | true => rfl
  have hsub : ((List.range (bad.length + 1)).map nm) ⊆ bad := by
    intro x hx
    rcases List.mem_map.mp hx with ⟨j, hj, rfl⟩
    exact hocc j (hall j (List.mem_range.mp hj))
  have hnd : ((List.range (bad.length + 1)).map nm).Nodup :=
    (List.nodup_range _).map hinj
  have := (List.subperm_of_subset hnd hsub).length_le
  simp [List.length_map, List.length_range] at this

theorem containsStr_eq_true_iff {l : List String} {a : String} :
    l.contains a = true ↔ a ∈ l := by
  show l.elem a = true ↔ a ∈ l
  simp

theorem containsStr_eq_false_iff {l : List String} {a : String} :
    l.contains a = false ↔ a ∉ l := by
  show l.elem a = false ↔ a ∉ l
  simp

theorem dirOccupied_false_iff (existing : List String) (name : String) :
    dirOccupied existing name = false ↔ name ≠ "" ∧ name ∉ existing := by
  unfold dirOccupied
  rw [Bool.or_eq_false_iff]
  constructor
  · rintro ⟨h1, h2⟩
    exact ⟨fun e => by subst e; exact absurd h1 (by decide),
      containsStr_eq_false_iff.mp h2⟩
  · rintro ⟨h1, h2⟩
    refine ⟨?_, containsStr_eq_false_iff.mpr h2⟩
    cases he : name.isEmpty with
    | false => rfl
    | true => exact absurd ((String.isEmpty_iff name).mp he) h1

/-! ## The resolver loops: freshness, minimality, non-chaining -/

theorem resolveFolder_spec (existing : List String) (orig : String) :
    dirOccupied existing (resolveFolder existing orig) = false ∧
      ∃ j, resolveFolder existing orig = folderCandidate orig j ∧
        ∀ i, i < j → dirOccupied existing (folderCandidate orig i) = true := by
  set occ := fun k => dirOccupied existing (folderCandidate orig k) with hocc
  have hfree : ∃ j, j < existing.length + 2 ∧ occ j = false := by
    have hx := exists_free (folderCandidate orig) (folderCandidate_inj orig) occ
      ("" :: existing) ?_
    · simpa using hx
    · intro n hn
      rw [hocc] at hn
      simp only [dirOccupied] at hn
      rcases Bool.or_eq_true_iff.mp hn with h | h
      · exact (String.isEmpty_iff _).mp h ▸ List.mem_cons_self _ _
      · exact List.mem_cons_of_mem _ (containsStr_eq_true_iff.mp h)
  rcases hfree with ⟨j, hj, hjf⟩
  have hs := searchFrom_spec occ (existing.length + 2) 0 ⟨j, Nat.zero_le j, by omega, hjf⟩
  exact ⟨hs.1, searchFrom occ 0 (existing.length + 2), rfl,
    fun i hi => hs.2.2 i (Nat.zero_le i) hi⟩

theorem resolveAttachment_spec (existing : List String) (orig : String) :
    existing.contains (resolveAttachment existing orig) = false ∧
      ∃ j, resolveAttachment existing orig = attachCandidate orig j ∧
        ∀ i, i < j → existing.contains (attachCandidate orig i) = true := by
  set occ := fun k => existing.contains (attachCandidate orig k) with hocc
  have hfree : ∃ j, j < existing.length + 2 ∧ occ j = false := by
    rcases exists_free (attachCandidate orig) (attachCandidate_inj orig) occ
      existing (fun n hn => containsStr_eq_true_iff.mp hn) with ⟨j, hj, hjf⟩
    exact ⟨j, by omega, hjf⟩
  rcases hfree with ⟨j, hj, hjf⟩
  have hs := searchFrom_spec occ (existing.length + 2) 0 ⟨j, Nat.zero_le j, by omega, hjf⟩
  exact ⟨hs.1, searchFrom occ 0 (existing.length + 2), rfl,
    fun i hi => hs.2.2 i (Nat.zero_le i) hi⟩

theorem resolveFolder_not_mem (existing : List String) (orig : String) :
    resolveFolder existing orig ∉ existing ∧ resolveFolder existing orig ≠ "" := by
  have h := (dirOccupied_false_iff _ _).mp (resolveFolder_spec existing orig).1
  exact ⟨h.2, h.1⟩

theorem resolveAttachment_not_mem (existing : List String) (orig : String) :
    resolveAttachment existing orig ∉ existing :=
  containsStr_eq_false_iff.mp (resolveAttachment_spec existing orig).1

theorem folderCandidate_one (orig : String) : folderCandidate orig 1 = orig ++ "_1" := by
  show orig ++ "_" ++ Nat.repr 1 = orig ++ "_1"
  rw [String.append_assoc]
  rfl

theorem folderCandidate_two (orig : String) : folderCandidate orig 2 = orig ++ "_2" := by
  show orig ++ "_" ++ Nat.repr 2 = orig ++ "_2"
  rw [String.append_assoc]
  rfl

theorem attachCandidate_one (orig : String) :
    attachCandidate orig 1 = (splitext orig).1 ++ "_1" ++ (splitext orig).2 := by
  show (splitext orig).1 ++ "_" ++ Nat.repr 1 ++ (splitext orig).2 = _
  exact congrArg (fun s => s ++ (splitext orig).2) (folderCandidate_one (splitext orig).1)

theorem attachCandidate_two (orig : String) :
    attachCandidate orig 2 = (splitext orig).1 ++ "_2" ++ (splitext orig).2 := by
  show (splitext orig).1 ++ "_" ++ Nat.repr 2 ++ (splitext orig).2 = _
  exact congrArg (fun s => s ++ (splitext orig).2) (folderCandidate_two (splitext orig).1)

theorem resolveFolder_of_free (existing : List String) (orig : String)
    (h : dirOccupied existing orig = false) : resolveFolder existing orig = orig := by
  obtain ⟨hfree, j, hj, hmin⟩ := resolveFolder_spec existing orig
  cases j with
  | zero => exact hj
  | succ j =>
    exact absurd ((show folderCandidate orig 0 = orig from rfl) ▸ hmin 0 (Nat.succ_pos j))
      (by rw [h]; exact Bool.false_ne_true)

theorem resolveFolder_of_second (existing : List String) (orig : String)
    (h0 : dirOccupied existing orig = true)
    (h1 : dirOccupied existing (orig ++ "_1") = false) :
    resolveFolder existing orig = orig ++ "_1" := by
  obtain ⟨hfree, j, hj, hmin⟩ := resolveFolder_spec existing orig
  match j, hj with
  | 0, hj => rw [hj] at hfree; rw [show folderCandidate orig 0 = orig from rfl] at hfree
             rw [hfree] at h0; cases h0
  | 1, hj => rw [hj, folderCandidate_one]
  | j + 2, hj =>
    have := hmin 1 (by omega)
    rw [folderCandidate_one] at this
    rw [this] at h1; cases h1

theorem resolveFolder_of_third (existing : List String) (orig : String)
    (h0 : dirOccupied existing orig = true)
    (h1 : dirOccupied existing (orig ++ "_1") = true)
    (h2 : dirOccupied existing (orig ++ "_2") = false) :
    resolveFolder existing orig = orig ++ "_2" := by
  obtain ⟨hfree, j, hj, hmin⟩ := resolveFolder_spec existing orig
  match j, hj with
  | 0, hj => rw [hj] at hfree; rw [show folderCandidate orig 0 = orig from rfl] at hfree
             rw [hfree] at h0; cases h0
  | 1, hj => rw [hj, folderCandidate_one] at hfree; rw [hfree] at h1; cases h1
  | 2, hj => rw [hj, folderCandidate_two]
  | j + 3, hj =>
    have := hmin 2 (by omega)
    rw [folderCandidate_two] at this
    rw [this] at h2; cases h2

theorem resolveAttachment_of_free (existing : List String) (orig : String)
    (h : existing.contains orig = false) : resolveAttachment existing orig = orig := by
  obtain ⟨hfree, j, hj, hmin⟩ := resolveAttachment_spec existing orig
  cases j with
  | zero => exact hj
  | succ j =>
    exact absurd ((show attachCandidate orig 0 = orig from rfl) ▸ hmin 0 (Nat.succ_pos j))
      (by rw [h]; exact Bool.false_ne_true)

theorem resolveAttachment_of_second (existing : List String) (orig : String)
    (h0 : existing.contains orig = true)
    (h1 : existing.contains ((splitext orig).1 ++ "_1" ++ (splitext orig).2) = false) :
    resolveAttachment existing orig = (splitext orig).1 ++ "_1" ++ (splitext orig).2 := by
  obtain ⟨hfree, j, hj, hmin⟩ := resolveAttachment_spec existing orig
  match j, hj with
  | 0, hj => rw [hj] at hfree; rw [show attachCandidate orig 0 = orig from rfl] at hfree
             rw [hfree] at h0; cases h0
  | 1, hj => rw [hj, attachCandidate_one]
  | j + 2, hj =>
    have := hmin 1 (by omega)
    rw [attachCandidate_one] at this
    rw [this] at h1; cases h1

theorem resolveAttachment_of_third (existing : List String) (orig : String)
    (h0 : existing.contains orig = true)
    (h1 : existing.contains ((splitext orig).1 ++ "_1" ++ (splitext orig).2) = true)
    (h2 : existing.contains ((splitext orig).1 ++ "_2" ++ (splitext orig).2) = false) :
    resolveAttachment existing orig = (splitext orig).1 ++ "_2" ++ (splitext orig).2 := by
  obtain ⟨hfree, j, hj, hmin⟩ := resolveAttachment_spec existing orig
  match j, hj with
  | 0, hj => rw [hj] at hfree; rw [show attachCandidate orig 0 = orig from rfl] at hfree
             rw [hfree] at h0; cases h0
  | 1, hj => rw [hj, attachCandidate_one] at hfree; rw [hfree] at h1; cases h1
  | 2, hj => rw [hj, attachCandidate_two]
  | j + 3, hj =>
    have := hmin 2 (by omega)
    rw [attachCandidate_two] at this
    rw [this] at h2; cases h2

/-! ## Small string helpers -/

theorem append_suffix_ne (s t : String) (ht : t.data ≠ []) : s ++ t ≠ s := by
  intro h
  have hl := congrArg (fun x : String => x.data.length) h
  simp only [strData_append, List.length_append] at hl
  have := List.length_pos.mpr ht
  omega

theorem append_right_ne (s : String) {t u : String} (h : t ≠ u) : s ++ t ≠ s ++ u :=
  fun e => h (strAppend_left_cancel e)

theorem nodup_concat {α : Type} {l : List α} {x : α} (h : l.Nodup) (hx : x ∉ l) :
    (l ++ [x]).Nodup := by
  rw [List.nodup_append]
  exact ⟨h, List.nodup_singleton x, fun a ha hb => hx ((List.mem_singleton.mp hb) ▸ ha)⟩

theorem mem_stripEnds {x : Char} {p : Char → Bool} {cs : List Char}
    (h : x ∈ stripEnds p cs) : x ∈ cs := by
  unfold stripEnds at h
  rw [List.mem_reverse] at h
  have h1 : x ∈ (cs.dropWhile p).reverse := (List.dropWhile_suffix p).sublist.subset h
  rw [List.mem_reverse] at h1
  exact (List.dropWhile_suffix p).sublist.subset h1

/-! ## The classification loop, one step and folded -/

theorem classifyStep_plain (st : WalkState) (p : Part) :
    (classifyStep st p).plain_body =
      if bodyCand "text/plain" p && st.plain_body.isNone then some p.get_content
      else st.plain_body := by
  unfold classifyStep bodyCand
  cases hA : strContainsSub p.disposition "attachment" with
  | true =>
    simp only [hA, Bool.not_true, Bool.false_and, if_true]
    cases p.filename with
    | none => simp
    | some fn =>
      by_cases hfn : fn.isEmpty = true
      · simp [hfn]
      · simp [hfn]
  | false =>
    simp only [hA, Bool.not_false, Bool.true_and, Bool.false_eq_true, if_false]
    cases hb : (p.contentType == "text/plain" && st.plain_body.isNone) with
    | true => simp [hb]
    | false =>
      simp only [hb, Bool.false_eq_true, if_false]
      split <;> rfl

theorem classifyStep_html (st : WalkState) (p : Part) :
    (classifyStep st p).html_body =
      if bodyCand "text/html" p && st.html_body.isNone then some p.get_content
      else st.html_body := by
  unfold classifyStep bodyCand
  cases hA : strContainsSub p.disposition "attachment" with
  | true =>
    simp only [hA, Bool.not_true, Bool.false_and, if_true]
    cases p.filename with
    | none => simp
    | some fn =>
      by_cases hfn : fn.isEmpty = true
      · simp [hfn]
      · simp [hfn]
  | false =>
    simp only [hA, Bool.not_false, Bool.true_and, Bool.false_eq_true, if_false]
    cases hp : (p.contentType == "text/plain") with
    | true =>
      have hph : (p.contentType == "text/html") = false := by
        have he := eq_of_beq hp
        rw [he]
        decide
      simp only [hp, hph, Bool.true_and, Bool.false_and, Bool.false_eq_true, if_false]
      cases hpn : st.plain_body.isNone with
      | true => simp [hpn]
      | false => simp [hpn]
    | false =>
      simp only [hp, Bool.false_and, Bool.false_eq_true, if_false]
      cases hh : (p.contentType == "text/html" && st.html_body.isNone) with
      | true => simp [hh]
      | false => simp [hh]

theorem foldl_classify_plain (l : List Part) (st : WalkState) :
    (l.foldl classifyStep st).plain_body =
      match st.plain_body with
      | some v => some v
      | none => (l.find? (bodyCand "text/plain")).map Part.get_content := by
  induction l generalizing st with
  | nil => cases hst : st.plain_body <;> simp [hst]
  | cons p l ih =>
    rw [List.foldl_cons, ih (classifyStep st p), classifyStep_plain]
    cases hb : bodyCand "text/plain" p with
    | true =>
      cases hst : st.plain_body with
      | none => simp [hb, hst, List.find?_cons_of_pos _ hb]
      | some v => simp [hb, hst]
    | false =>
      have hfind : (p :: l).find? (bodyCand "text/plain") = l.find? (bodyCand "text/plain") :=
        List.find?_cons_of_neg _ (by rw [hb]; exact Bool.false_ne_true)
      cases hst : st.plain_body with
      | none => simp [hb, hst, hfind]
      | some v => simp [hb, hst]

theorem foldl_classify_html (l : List Part) (st : WalkState) :
    (l.foldl classifyStep st).html_body =
      match st.html_body with
      | some v => some v
      | none => (l.find? (bodyCand "text/html")).map Part.get_content := by
  induction l generalizing st with
  | nil => cases hst : st.html_body <;> simp [hst]
  | cons p l ih =>
    rw [List.foldl_cons, ih (classifyStep st p), classifyStep_html]
    cases hb : bodyCand "text/html" p with
    | true =>
      cases hst : st.html_body with
      | none => simp [hb, hst, List.find?_cons_of_pos _ hb]
      | some v => simp [hb, hst]
    | false =>
      have hfind : (p :: l).find? (bodyCand "text/html") = l.find? (bodyCand "text/html") :=
        List.find?_cons_of_neg _ (by rw [hb]; exact Bool.false_ne_true)
      cases hst : st.html_body with
      | none => simp [hb, hst, hfind]
      | some v => simp [hb, hst]

/-! ## The attachment-saving loop -/

theorem saveLoop_counts (oracle : Nat → Bool) :
    ∀ (l : List (Nat × Attachment)) (st : SaveState),
      (l.foldl (fun st ia => saveOne (oracle ia.1) st ia.2) st).existing.length =
          st.existing.length + l.countP (fun ia => oracle ia.1 && ia.2.content.isSome) ∧
        (l.foldl (fun st ia => saveOne (oracle ia.1) st ia.2) st).warnings =
          st.warnings + l.countP (fun ia => !(oracle ia.1 && ia.2.content.isSome)) := by
  intro l
  induction l with
  | nil => intro st; simp
  | cons ia l ih =>
    intro st
    rw [List.foldl_cons]
    obtain ⟨ih1, ih2⟩ := ih (saveOne (oracle ia.1) st ia.2)
    by_cases hok : (oracle ia.1 && ia.2.content.isSome) = true
    · have hs : (saveOne (oracle ia.1) st ia.2).existing.length = st.existing.length + 1 := by
        unfold saveOne; rw [if_pos hok]; simp
      have hw : (saveOne (oracle ia.1) st ia.2).warnings = st.warnings := by
        unfold saveOne; rw [if_pos hok]
      rw [ih1, ih2, hs, hw, List.countP_cons, List.countP_cons]
      simp [hok]
      omega
    · have hs : (saveOne (oracle ia.1) st ia.2).existing = st.existing := by
        unfold saveOne; rw [if_neg hok]
      have hw : (saveOne (oracle ia.1) st ia.2).warnings = st.warnings + 1 := by
        unfold saveOne; rw [if_neg hok]
      rw [ih1, ih2, hs, hw, List.countP_cons, List.countP_cons]
      rw [Bool.not_eq_true] at hok
      simp [hok]
      omega

theorem saveLoop_nodup (oracle : Nat → Bool) :
    ∀ (l : List (Nat × Attachment)) (st : SaveState), st.existing.Nodup →
      (l.foldl (fun st ia => saveOne (oracle ia.1) st ia.2) st).existing.Nodup := by
  intro l
  induction l with
  | nil => intro st h; simpa using h
  | cons ia l ih =>
    intro st h
    rw [List.foldl_cons]
    apply ih
    unfold saveOne
    by_cases hok : (oracle ia.1 && ia.2.content.isSome) = true
    · rw [if_pos hok]
      exact nodup_concat h (resolveAttachment_not_mem _ _)
    · rw [if_neg hok]
      exact h

theorem saveAttachments_nodup (oracle : Nat → Bool) (atts : List Attachment) :
    (saveAttachments oracle atts).existing.Nodup :=
  saveLoop_nodup oracle atts.enum ⟨[], 0⟩ List.nodup_nil

/-! ## Batch directory assignment -/

theorem assignFolders_fresh :
    ∀ (files existing : List String),
      (assignFolders existing files).Nodup ∧
        ∀ x ∈ assignFolders existing files, x ∉ existing := by
  intro files
  induction files with
  | nil => intro existing; simp [assignFolders]
  | cons f fs ih =>
    intro existing
    obtain ⟨hnd, havoid⟩ := ih (existing ++ [resolveFolder existing (sanitize_folder_name f)])
    constructor
    · refine List.nodup_cons.mpr ⟨?_, hnd⟩
      intro hmem
      exact havoid _ hmem (List.mem_append_right _ (List.mem_singleton_self _))
    · intro x hx
      rcases List.mem_cons.mp hx with rfl | hx'
      · exact (resolveFolder_not_mem existing _).1
      · exact fun hxe => havoid x hx' (List.mem_append_left _ hxe)

theorem sanitize_folder_name_dots : sanitize_folder_name "....eml" = "" := by decide

/-! ## Properties of attachment-filename sanitization (shared helper) -/

theorem sanitize_attachment_props (s : String) :
    sanitize_attachment_filename s ≠ "" ∧
      '/' ∉ (sanitize_attachment_filename s).data ∧
      '\\' ∉ (sanitize_attachment_filename s).data := by
  unfold sanitize_attachment_filename
  by_cases h0 : s.isEmpty = true
  · rw [if_pos h0]
    exact ⟨by decide, by decide, by decide⟩
  · rw [if_neg h0]
    by_cases hempty :
        (stripEnds isDotSpace
          (s.data.map (fun c => if attachInvalidChars.contains c then '_' else c))).isEmpty = true
    · rw [if_pos hempty]
      exact ⟨by decide, by decide, by decide⟩
    · rw [if_neg hempty]
      have hchar : ∀ x ∈ stripEnds isDotSpace
          (s.data.map (fun c => if attachInvalidChars.contains c then '_' else c)),
          x ≠ '/' ∧ x ≠ '\\' := by
        intro x hx
        have hxm := mem_stripEnds hx
        rcases List.mem_map.mp hxm with ⟨c, _, rfl⟩
        by_cases hcc : attachInvalidChars.contains c = true
        · rw [if_pos hcc]
          exact ⟨by decide, by decide⟩
        · rw [if_neg hcc]
          constructor
          · intro e; subst e; exact hcc (by decide)
          · intro e; subst e; exact hcc (by decide)
      refine ⟨?_, ?_, ?_⟩
      · intro e
        have hdat := congrArg String.data e
        apply hempty
        rw [List.isEmpty_iff]
        exact hdat
      · intro hmem
        exact (hchar '/' hmem).1 rfl
      · intro hmem
        exact (hchar '\\' hmem).2 rfl

theorem splitext_example : splitext "file.pdf" = ("file", ".pdf") := by decide

theorem resolveAttachment_example :
    resolveAttachment ["file.pdf"] "file.pdf" = "file_1.pdf" := by decide

theorem sanitize_attachment_example :
    sanitize_attachment_filename "report:final.pdf" = "report_final.pdf" := by decide


/-! ## Claims -/

/-- C1 (counterexample). The claim says a non-multipart message whose
disposition contains "attachment" is never a body candidate and, with a
declared filename, is persisted and counted. The code's non-multipart
branch (main.py:108-113) never consults the disposition: this concrete
single-part message with content type `text/plain` and an attachment
disposition becomes the plain body candidate, and its attachment is
neither recorded nor counted. -/
theorem claim1_counterexample :
    strContainsSub (Part.leaf "text/plain" "attachment; filename=a.txt" (some "a.txt")
        "hello" (some [104])).disposition "attachment" = true ∧
      (traverse (Part.leaf "text/plain" "attachment; filename=a.txt" (some "a.txt")
        "hello" (some [104]))).plain_body = some "hello" ∧
      (traverse (Part.leaf "text/plain" "attachment; filename=a.txt" (some "a.txt")
        "hello" (some [104]))).attachments = [] ∧
      (extract_single_email (fun _ => true)
        ⟨[], Part.leaf "text/plain" "attachment; filename=a.txt" (some "a.txt")
          "hello" (some [104])⟩).result.attachment_count = 0 ∧
      (extract_single_email (fun _ => true)
        ⟨[], Part.leaf "text/plain" "attachment; filename=a.txt" (some "a.txt")
          "hello" (some [104])⟩).result.has_plain = true := by decide

/-- C1 (amended). For a non-multipart message the classification ignores
the disposition entirely: a `text/plain` (resp. `text/html`) content type
yields the plain (resp. HTML) body candidate — even under an attachment
disposition — any other content type yields nothing, and no attachment is
ever recorded, so non-multipart attachments are never persisted or
counted. An attachment-only non-multipart message yields zero body
artifacts only when its content type is neither `text/plain` nor
`text/html`. -/
theorem claim1_amended (ct d : String) (fn : Option String) (content : String)
    (payload : Option (List Nat)) :
    (traverse (Part.leaf ct d fn content payload)).attachments = [] ∧
      (traverse (Part.leaf ct d fn content payload)).plain_body =
        (if ct == "text/plain" then some content else none) ∧
      (traverse (Part.leaf ct d fn content payload)).html_body =
        (if ct == "text/html" then some content else none) := by
  unfold traverse
  simp only [Part.is_multipart, Bool.false_eq_true, if_false, Part.contentType,
    Part.get_content]
  cases hp : (ct == "text/plain") with
  | true =>
    have he := eq_of_beq hp
    subst he
    simp
  | false =>
    cases hh : (ct == "text/html") with
    | true => simp [hp, hh]
    | false => simp [hp, hh]

/-- C6 (confirmed). For a multipart message, traversal visits the parts in
depth-first document order (`Part.walk`) and the retained plain (resp.
HTML) body candidate is exactly the first visited part with non-attachment
disposition and content type `text/plain` (resp. `text/html`); every later
part of the same content type is ignored, and at most one candidate of
each kind is retained (the candidate is a single `Option`). -/
theorem claim6_first_body_wins (ct d : String) (fn : Option String) (children : List Part) :
    (traverse (Part.node ct d fn children)).plain_body =
        ((Part.node ct d fn children).walk.find? (bodyCand "text/plain")).map Part.get_content ∧
      (traverse (Part.node ct d fn children)).html_body =
        ((Part.node ct d fn children).walk.find? (bodyCand "text/html")).map Part.get_content := by
  constructor
  · show ((Part.node ct d fn children).walk.foldl classifyStep ⟨none, none, []⟩).plain_body = _
    rw [foldl_classify_plain]
  · show ((Part.node ct d fn children).walk.foldl classifyStep ⟨none, none, []⟩).html_body = _
    rw [foldl_classify_html]

/-- C7 (confirmed). Every declared attachment filename sanitizes to a
non-empty name containing neither `/` nor `\\` (so the persisted file is a
direct child of `attachments/`); the empty input and an input of only dots
and spaces yield the fallback name `unnamed_attachment`. -/
theorem claim7_sanitize_safe (s : String) :
    sanitize_attachment_filename s ≠ "" ∧
      '/' ∉ (sanitize_attachment_filename s).data ∧
      '\\' ∉ (sanitize_attachment_filename s).data ∧
      sanitize_attachment_filename "" = "unnamed_attachment" ∧
      sanitize_attachment_filename "... ." = "unnamed_attachment" := by
  obtain ⟨h1, h2, h3⟩ := sanitize_attachment_props s
  exact ⟨h1, h2, h3, by decide, by decide⟩

/-- C8 (counterexample). The claim says the CLI exits with code 1 when the
input folder does not exist; but `process_all` (main.py:161-163) prints the
error and returns normally, and `main` never calls `sys.exit` afterwards,
so the interpreter exits with code 0 on this concrete invocation with a
missing input folder. -/
theorem claim8_counterexample :
    main_run ["batch_extract_standalone.py", "missing_folder"] false 0 (fun _ => true) =
      (0, some BatchOutcome.folderNotFound) := by decide

/-- C8 (amended). The batch CLI exits with code 1 exactly when the
required input-folder argument is missing (fewer than two `argv` entries);
in every other case — including per-file failures AND a non-existent input
folder (where an error is printed but execution returns normally) — it
exits with code 0. -/
theorem claim8_amended (argv : List String) (folderExists : Bool) (numFiles : Nat)
    (fileOk : Nat → Bool) :
    (main_run argv folderExists numFiles fileOk).1 = (if argv.length < 2 then 1 else 0) := by
  unfold main_run
  by_cases h : argv.length < 2
  · simp [h]
  · simp [h]

/-- C10 (confirmed). Unlike `sanitize_attachment_filename`,
`sanitize_folder_name` has no non-empty fallback: `"....eml"` and `"."`
both sanitize to the empty string; the empty candidate joined to the
output base is the base itself, which exists (`dirOccupied` is true), so
collision resolution returns the first suffixed candidate `"_1"` whenever
no sibling of that name exists. -/
theorem claim10_empty_folder_name (existing : List String)
    (h : existing.contains "_1" = false) :
    sanitize_folder_name "....eml" = "" ∧
      sanitize_folder_name "." = "" ∧
      dirOccupied existing "" = true ∧
      resolveFolder existing "" = "_1" ∧
      (∀ s, sanitize_attachment_filename s ≠ "") := by
  refine ⟨by decide, by decide, rfl, ?_, fun s => (sanitize_attachment_props s).1⟩
  have h1 : dirOccupied existing (("" : String) ++ "_1") = false := by
    have he : ("" : String) ++ "_1" = "_1" := rfl
    rw [he]
    exact (dirOccupied_false_iff existing "_1").mpr ⟨by decide, containsStr_eq_false_iff.mp h⟩
  exact (resolveFolder_of_second existing "" rfl h1).trans rfl

/-- C10 (witness). -/
theorem claim10_witness :
    resolveFolder [] "" = "_1" ∧ sanitize_folder_name "....eml" = "" := by
  have h := claim10_empty_folder_name [] (by decide)
  exact ⟨h.2.2.2.1, h.1⟩


/-- C2 (counterexample). The claim says the returned summary reflects what
was actually written. On this concrete message with one declared
attachment whose write fails (oracle false) and one empty plain body,
`attachment_count` is 1 while zero attachment files were written, and
`has_plain` is true while `body_plain.txt` was not written: the summary
reports candidates (`is not None` / list length), not files written. -/
theorem claim2_counterexample :
    (extract_single_email (fun _ => false)
        ⟨[], Part.node "multipart/mixed" "" none
          [Part.leaf "application/pdf" "attachment; filename=a.pdf" (some "a.pdf")
            "" (some [37]),
           Part.leaf "text/plain" "" none "" none]⟩).result.attachment_count = 1 ∧
      (extract_single_email (fun _ => false)
        ⟨[], Part.node "multipart/mixed" "" none
          [Part.leaf "application/pdf" "attachment; filename=a.pdf" (some "a.pdf")
            "" (some [37]),
           Part.leaf "text/plain" "" none "" none]⟩).attachment_files = [] ∧
      (extract_single_email (fun _ => false)
        ⟨[], Part.node "multipart/mixed" "" none
          [Part.leaf "application/pdf" "attachment; filename=a.pdf" (some "a.pdf")
            "" (some [37]),
           Part.leaf "text/plain" "" none "" none]⟩).result.has_plain = true ∧
      (extract_single_email (fun _ => false)
        ⟨[], Part.node "multipart/mixed" "" none
          [Part.leaf "application/pdf" "attachment; filename=a.pdf" (some "a.pdf")
            "" (some [37]),
           Part.leaf "text/plain" "" none "" none]⟩).files.contains "body_plain.txt"
        = false := by decide

/-- C2 (amended). The returned `ExtractionResult` reflects the traversal's
candidates, not the files written: `has_plain` / `has_html` are the
`is not None` tests on the captured candidates (true even for an empty
candidate, whose file is not written), and `attachment_count` is the
number of recorded attachment candidates, counting those whose write
failed; the number of attachment files actually written is instead the
number of successful writes. -/
theorem claim2_amended (oracle : Nat → Bool) (msg : EmailMessage) :
    (extract_single_email oracle msg).result.has_plain =
        (traverse msg.root).plain_body.isSome ∧
      (extract_single_email oracle msg).result.has_html =
        (traverse msg.root).html_body.isSome ∧
      (extract_single_email oracle msg).result.attachment_count =
        (traverse msg.root).attachments.length ∧
      (extract_single_email oracle msg).attachment_files.length =
        (traverse msg.root).attachments.enum.countP
          (fun ia => oracle ia.1 && ia.2.content.isSome) := by
  refine ⟨rfl, rfl, rfl, ?_⟩
  show (if (traverse msg.root).attachments.isEmpty then SaveState.mk [] 0
      else saveAttachments oracle (traverse msg.root).attachments).existing.length = _
  by_cases he : (traverse msg.root).attachments.isEmpty = true
  · rw [if_pos he, List.isEmpty_iff.mp he]
    rfl
  · rw [if_neg he]
    have hc := (saveLoop_counts oracle (traverse msg.root).attachments.enum ⟨[], 0⟩).1
    simpa [saveAttachments] using hc

/-- C3 (counterexample). The claim says a captured plain-text candidate
whose decoded text is the empty string is still materialized as
`body_plain.txt`. On this concrete message the candidate is `some ""` (and
`has_plain` is reported true), yet the only file written is `headers.txt`:
the write is guarded by Python truthiness (`if plain_body:`), which is
false for the empty string. -/
theorem claim3_counterexample :
    (traverse (Part.node "multipart/alternative" "" none
        [Part.leaf "text/plain" "" none "" none])).plain_body = some "" ∧
      (extract_single_email (fun _ => true)
        ⟨[], Part.node "multipart/alternative" "" none
          [Part.leaf "text/plain" "" none "" none]⟩).files = ["headers.txt"] ∧
      (extract_single_email (fun _ => true)
        ⟨[], Part.node "multipart/alternative" "" none
          [Part.leaf "text/plain" "" none "" none]⟩).result.has_plain = true := by decide

/-- C3 (amended). `body_plain.txt` (resp. `body_html.html`) is written iff
the captured candidate is truthy, i.e. present AND non-empty; a candidate
whose decoded text is the empty string yields no body file, although the
returned presence booleans (the `is not None` tests) still report it as
present. -/
theorem claim3_amended (oracle : Nat → Bool) (msg : EmailMessage) :
    (extract_single_email oracle msg).files.contains "body_plain.txt" =
        optTruthy (traverse msg.root).plain_body ∧
      (extract_single_email oracle msg).files.contains "body_html.html" =
        optTruthy (traverse msg.root).html_body ∧
      (extract_single_email oracle msg).result.has_plain =
        (traverse msg.root).plain_body.isSome ∧
      (extract_single_email oracle msg).result.has_html =
        (traverse msg.root).html_body.isSome := by
  refine ⟨?_, ?_, rfl, rfl⟩
  · show (["headers.txt"]
        ++ (if optTruthy (traverse msg.root).plain_body then ["body_plain.txt"] else [])
        ++ (if optTruthy (traverse msg.root).html_body then ["body_html.html"] else
          [])).contains "body_plain.txt" = _
    cases hp : optTruthy (traverse msg.root).plain_body <;>
      cases hh : optTruthy (traverse msg.root).html_body <;> decide
  · show (["headers.txt"]
        ++ (if optTruthy (traverse msg.root).plain_body then ["body_plain.txt"] else [])
        ++ (if optTruthy (traverse msg.root).html_body then ["body_html.html"] else
          [])).contains "body_html.html" = _
    cases hp : optTruthy (traverse msg.root).plain_body <;>
      cases hh : optTruthy (traverse msg.root).html_body <;> decide


/-- C9 (confirmed). A failed decode/write of one attachment is recovered
locally inside materialization: the returned summary is identical to the
one of a fully successful run (the message still succeeds — extraction is
a total function of the parsed message, independent of write outcomes),
each failure produces exactly one warning, and every other attachment is
still processed and written (the files written are exactly the successful
writes, one per succeeding attachment). -/
theorem claim9_attachment_failure_recovery (oracle : Nat → Bool) (msg : EmailMessage) :
    (extract_single_email oracle msg).result =
        (extract_single_email (fun _ => true) msg).result ∧
      (extract_single_email oracle msg).warnings =
        (traverse msg.root).attachments.enum.countP
          (fun ia => !(oracle ia.1 && ia.2.content.isSome)) ∧
      (extract_single_email oracle msg).attachment_files.length =
        (traverse msg.root).attachments.enum.countP
          (fun ia => oracle ia.1 && ia.2.content.isSome) := by
  refine ⟨rfl, ?_, ?_⟩
  · show (if (traverse msg.root).attachments.isEmpty then SaveState.mk [] 0
        else saveAttachments oracle (traverse msg.root).attachments).warnings = _
    by_cases he : (traverse msg.root).attachments.isEmpty = true
    · rw [if_pos he, List.isEmpty_iff.mp he]
      rfl
    · rw [if_neg he]
      have hc := (saveLoop_counts oracle (traverse msg.root).attachments.enum ⟨[], 0⟩).2
      simpa [saveAttachments] using hc
  · show (if (traverse msg.root).attachments.isEmpty then SaveState.mk [] 0
        else saveAttachments oracle (traverse msg.root).attachments).existing.length = _
    by_cases he : (traverse msg.root).attachments.isEmpty = true
    · rw [if_pos he, List.isEmpty_iff.mp he]
      rfl
    · rw [if_neg he]
      have hc := (saveLoop_counts oracle (traverse msg.root).attachments.enum ⟨[], 0⟩).1
      simpa [saveAttachments] using hc


/-- C4 (confirmed). When source filenames sanitize to the same folder base
name `b` (and no suffixed sibling pre-exists), the batch assigns `b` to the
first message, `b_1` to the second and `b_2` to the third — each counter
suffix applied to the original sanitized candidate; moreover, in any batch
the assigned directory names are pairwise distinct, and every resolution
returns the original candidate with the first counter (in order
0, 1, 2, …) whose path does not exist, never chaining onto a previous
counter's result. -/
theorem claim4_folder_collisions
    (existing : List String) (b f1 f2 f3 : String)
    (h1 : sanitize_folder_name f1 = b) (h2 : sanitize_folder_name f2 = b)
    (h3 : sanitize_folder_name f3 = b)
    (hb0 : dirOccupied existing b = false)
    (hb1 : dirOccupied existing (b ++ "_1") = false)
    (hb2 : dirOccupied existing (b ++ "_2") = false) :
    assignFolders existing [f1, f2, f3] = [b, b ++ "_1", b ++ "_2"] ∧
      (∀ files exArb, (assignFolders exArb files).Nodup) ∧
      (∀ exArb orig, ∃ j, resolveFolder exArb orig = folderCandidate orig j ∧
        ∀ i, i < j → dirOccupied exArb (folderCandidate orig i) = true) := by
  refine ⟨?_, fun files exArb => (assignFolders_fresh files exArb).1,
    fun exArb orig => (resolveFolder_spec exArb orig).2⟩
  have hb1' := (dirOccupied_false_iff existing (b ++ "_1")).mp hb1
  have hb2' := (dirOccupied_false_iff existing (b ++ "_2")).mp hb2
  have s1 : resolveFolder existing b = b := resolveFolder_of_free existing b hb0
  have m_b_ex1 : b ∈ existing ++ [b] := List.mem_append_right _ (List.mem_singleton_self b)
  have o_b_ex1 : dirOccupied (existing ++ [b]) b = true := by
    have hc : (existing ++ [b]).contains b = true := containsStr_eq_true_iff.mpr m_b_ex1
    unfold dirOccupied
    rw [hc, Bool.or_true]
  have o_b1_ex1 : dirOccupied (existing ++ [b]) (b ++ "_1") = false := by
    apply (dirOccupied_false_iff _ _).mpr
    refine ⟨hb1'.1, fun hm => ?_⟩
    rcases List.mem_append.mp hm with hms | hms
    · exact hb1'.2 hms
    · exact append_suffix_ne b "_1" (by decide) (List.mem_singleton.mp hms)
  have s2 : resolveFolder (existing ++ [b]) b = b ++ "_1" :=
    resolveFolder_of_second _ b o_b_ex1 o_b1_ex1
  have o_b_ex2 : dirOccupied (existing ++ [b] ++ [b ++ "_1"]) b = true := by
    have hc : (existing ++ [b] ++ [b ++ "_1"]).contains b = true :=
      containsStr_eq_true_iff.mpr (List.mem_append_left _ m_b_ex1)
    unfold dirOccupied
    rw [hc, Bool.or_true]
  have o_b1_ex2 : dirOccupied (existing ++ [b] ++ [b ++ "_1"]) (b ++ "_1") = true := by
    have hc : (existing ++ [b] ++ [b ++ "_1"]).contains (b ++ "_1") = true :=
      containsStr_eq_true_iff.mpr (List.mem_append_right _ (List.mem_singleton_self _))
    unfold dirOccupied
    rw [hc, Bool.or_true]
  have o_b2_ex2 : dirOccupied (existing ++ [b] ++ [b ++ "_1"]) (b ++ "_2") = false := by
    apply (dirOccupied_false_iff _ _).mpr
    refine ⟨hb2'.1, fun hm => ?_⟩
    rcases List.mem_append.mp hm with hms | hms
    · rcases List.mem_append.mp hms with hma | hma
      · exact hb2'.2 hma
      · exact append_suffix_ne b "_2" (by decide) (List.mem_singleton.mp hma)
    · exact append_right_ne b (show ("_2" : String) ≠ "_1" by decide)
        (List.mem_singleton.mp hms)
  have s3 : resolveFolder (existing ++ [b] ++ [b ++ "_1"]) b = b ++ "_2" :=
    resolveFolder_of_third _ b o_b_ex2 o_b1_ex2 o_b2_ex2
  simp only [assignFolders, h1, h2, h3, s1, s2, s3]

/-- C4 (witness). Three identically named source files in a fresh batch. -/
theorem claim4_witness :
    assignFolders [] ["a.eml", "a.eml", "a.eml"] = ["a", "a_1", "a_2"] := by
  have h := (claim4_folder_collisions [] "a" "a.eml" "a.eml" "a.eml" (by decide) (by decide)
    (by decide) (by decide) (by decide) (by decide)).1
  exact h.trans (by decide)

/-- C5 (confirmed). A colliding attachment name is renamed by splitting the
original sanitized name into stem and extension and suffixing the counter
onto the original stem before the extension (`file_1.pdf`, never
`file.pdf_1`); every resolution returns a candidate built from the
original name with the first free counter (never chained), and the
attachment files written for one message are pairwise distinct. -/
theorem claim5_attachment_collisions
    (existing : List String) (orig : String)
    (h0 : existing.contains orig = true)
    (h1 : existing.contains ((splitext orig).1 ++ "_1" ++ (splitext orig).2) = false) :
    resolveAttachment existing orig = (splitext orig).1 ++ "_1" ++ (splitext orig).2 ∧
      (∀ exArb origArb, ∃ j, resolveAttachment exArb origArb = attachCandidate origArb j ∧
        ∀ i, i < j → exArb.contains (attachCandidate origArb i) = true) ∧
      (∀ oracle msg, (extract_single_email oracle msg).attachment_files.Nodup) := by
  refine ⟨resolveAttachment_of_second existing orig h0 h1,
    fun exArb origArb => (resolveAttachment_spec exArb origArb).2, ?_⟩
  intro oracle msg
  show (if (traverse msg.root).attachments.isEmpty then SaveState.mk [] 0
      else saveAttachments oracle (traverse msg.root).attachments).existing.Nodup
  by_cases he : (traverse msg.root).attachments.isEmpty = true
  · rw [if_pos he]
    exact List.nodup_nil
  · rw [if_neg he]
    exact saveAttachments_nodup oracle _

/-- C5 (witness). A second `file.pdf` in the same message becomes
`file_1.pdf`, not `file.pdf_1`. -/
theorem claim5_witness :
    resolveAttachment ["file.pdf"] "file.pdf" = "file_1.pdf" := by
  have h := (claim5_attachment_collisions ["file.pdf"] "file.pdf" (by decide) (by decide)).1
  exact h.trans (by decide)

end EMLExtract
